import Mathlib

/-!
Shallow embedding of the LibrePCB board document model
(`src/libs/librepcb/core/project/board/board.cpp` and
`src/libs/librepcb/project/boards/cmd/cmdboardpolygonremove.cpp`).

Modelling conventions:
* C++ pointer identity of a board item is modelled by a numeric `id` field;
  `QList::contains(&x)` / `QList::removeOne(&x)` become containment / removal
  by `id`.
* `QMap<Uuid, T*>` (device instances, ERC messages) is modelled as an
  association list kept sorted by key, since `QMap` iterates in ascending key
  order; `QMultiHash<NetSignal*, BI_AirWire*>` is an association list keyed by
  net signal.
* Exceptions become an `Option BoardError` result component; every operation
  returns the post-state board together with the error (the C++ object
  outlives a thrown exception, so the post-state on an error path is exactly
  the board as left behind by the partially executed operation).
* External collaborators (item attach/detach side effects, the plane fragment
  builder, the airwire builder, the project's circuit) are an `Env` of
  oracle functions, mirroring the interface boundary of the spec.
* Scene/graphics state, serialization and the directory moves are outside the
  collections-level model; the directory move in `addToProject` is kept as a
  possible failure point (`moveDirectoryFails`).
-/

namespace LibrePCB

/-! ### Generic association-list and list helpers -/

/-- Number of entries of an association list carrying key `u`. -/
def countKey {α : Type} (l : List (Nat × α)) (u : Nat) : Nat :=
  l.countP (fun kv => kv.1 == u)

/-- `QMap::value(key)`: first entry with the given key, if any. -/
def lookupKey {α : Type} (l : List (Nat × α)) (u : Nat) : Option α :=
  (l.find? (fun kv => kv.1 == u)).map (·.2)

/-- `QMap::insert(key, value)` for a key not yet present: insert sorted by
key (a `QMap` iterates in ascending key order). -/
def insortKey {α : Type} (u : Nat) (v : α) : List (Nat × α) → List (Nat × α)
  | [] => [(u, v)]
  | kv :: rest => if u ≤ kv.1 then (u, v) :: kv :: rest else kv :: insortKey u v rest

/-- `QMap::remove(key)` / `QMap::take(key)`: drop the entries with the key. -/
def removeKey {α : Type} (u : Nat) (l : List (Nat × α)) : List (Nat × α) :=
  l.filter (fun kv => kv.1 != u)

/-- `QList::removeOne`: remove the first element satisfying `p`. -/
def removeOneP {α : Type} (p : α → Bool) : List α → List α
  | [] => []
  | x :: xs => if p x then xs else x :: removeOneP p xs

/-- `QSet::unite`: add the members of `extra` not already present. -/
def uniteList (base extra : List Nat) : List Nat :=
  extra.foldl (fun acc s => if acc.contains s then acc else acc ++ [s]) base

/-! ### Entities -/

/-- `BI_Device`: placed occurrence of a library part, keyed by the uuid of the
logical component instance it realizes. -/
structure Device where
  id : Nat
  boardRef : Nat
  cmpUuid : Nat
  position : Nat
  rotation : Nat
  mirrored : Bool
  attributes : Nat
  strokeTexts : List Nat
  deriving DecidableEq, Repr

/-- `BI_NetSegment`: a routing fragment keyed by uuid, owning an internal
graph of vias/netpoints/netlines (modelled opaquely as `contents`; no claim
depends on the internal graph). -/
structure NetSegment where
  id : Nat
  boardRef : Nat
  uuid : Nat
  netSignal : Nat
  contents : Nat
  deriving DecidableEq, Repr

/-- `BI_Plane`: a copper-fill region with a priority and a derived
`fragments` field (`setCalculatedFragments`). -/
structure Plane where
  id : Nat
  boardRef : Nat
  uuid : Nat
  layerName : Nat
  netSignal : Nat
  outline : Nat
  minWidth : Nat
  minClearance : Nat
  keepOrphans : Bool
  priority : Nat
  connectStyle : Nat
  visible : Bool
  fragments : List Nat
  deriving DecidableEq, Repr

/-- `BI_Polygon`. -/
structure Polygon where
  id : Nat
  boardRef : Nat
  uuid : Nat
  outline : Nat
  deriving DecidableEq, Repr

/-- `BI_StrokeText`. -/
structure StrokeText where
  id : Nat
  boardRef : Nat
  uuid : Nat
  text : Nat
  deriving DecidableEq, Repr

/-- `BI_Hole`. -/
structure Hole where
  id : Nat
  boardRef : Nat
  uuid : Nat
  hole : Nat
  deriving DecidableEq, Repr

/-- `BI_AirWire`: derived unrouted-connection indicator for one net signal. -/
structure AirWire where
  id : Nat
  netSignal : Nat
  p1 : Nat
  p2 : Nat
  deriving DecidableEq, Repr

/-- `ErcMsg`: advisory diagnostic with a visibility flag. -/
structure ErcMsg where
  visible : Bool
  deriving DecidableEq, Repr

/-- `BI_Base`: polymorphic board item as returned by `Board::getAllItems`. -/
inductive Item where
  | device (d : Device)
  | netSegment (n : NetSegment)
  | plane (p : Plane)
  | polygon (p : Polygon)
  | strokeText (t : StrokeText)
  | hole (h : Hole)
  | airWire (a : AirWire)
  deriving DecidableEq, Repr

/-- Object identity (C++ pointer) of an item. -/
def Item.id : Item → Nat
  | .device d => d.id
  | .netSegment n => n.id
  | .plane p => p.id
  | .polygon p => p.id
  | .strokeText t => t.id
  | .hole h => h.id
  | .airWire a => a.id

/-- Attach/detach side-effect invocations (`addToBoard` / `removeFromBoard`),
recorded by object identity. -/
inductive Event where
  | attach (i : Nat)
  | detach (i : Nat)
  deriving DecidableEq, Repr

/-- The two error kinds of §7, plus propagated side-effect failures:
`logicError` is `LogicError` (contract breach), `duplicateEntity` is the
`RuntimeError` raised for key conflicts, `sideEffect` is an exception escaped
from an item's attach/detach side effect or the directory move. -/
inductive BoardError where
  | logicError
  | duplicateEntity
  | sideEffect
  deriving DecidableEq, Repr

/-- External collaborators: side-effect outcomes per object identity, the
fragment builder, the airwire builder and the project's circuit. -/
structure Env where
  attachFails : Nat → Bool
  detachFails : Nat → Bool
  fragments : Nat → List Nat
  circuitNetSignals : List Nat
  netSignalActive : Nat → Bool
  buildAirWires : Nat → Option (List (Nat × Nat))
  componentInstances : List Nat
  schematicOnly : Nat → Bool
  moveDirectoryFails : Bool

/-- The board document: entity collections, attached flag, airwire pending
set and diagnostics, plus a fresh-identity counter standing in for `new` /
`Uuid::createRandom`. -/
structure Board where
  id : Nat
  isAddedToProject : Bool
  deviceInstances : List (Nat × Device)
  netSegments : List NetSegment
  planes : List Plane
  polygons : List Polygon
  strokeTexts : List StrokeText
  holes : List Hole
  airWires : List (Nat × AirWire)
  scheduledNetSignals : List Nat
  ercMsgs : List (Nat × ErcMsg)
  nextId : Nat
  deriving DecidableEq, Repr

/-! ### Getters -/

/-- `Board::isEmpty`. -/
def Board.isEmpty (b : Board) : Bool :=
  b.deviceInstances.isEmpty && b.netSegments.isEmpty && b.planes.isEmpty &&
    b.polygons.isEmpty && b.strokeTexts.isEmpty && b.holes.isEmpty

/-- `Board::getAllItems`: all entities in collection order (devices,
net segments, planes, polygons, stroke texts, holes, airwires). -/
def Board.getAllItems (b : Board) : List Item :=
  b.deviceInstances.map (fun kv => Item.device kv.2) ++
    b.netSegments.map Item.netSegment ++
    b.planes.map Item.plane ++
    b.polygons.map Item.polygon ++
    b.strokeTexts.map Item.strokeText ++
    b.holes.map Item.hole ++
    b.airWires.map (fun kv => Item.airWire kv.2)

/-- `Board::getDeviceInstanceByComponentUuid`. -/
def Board.getDeviceInstanceByComponentUuid (b : Board) (u : Nat) : Option Device :=
  lookupKey b.deviceInstances u

/-- `Board::getNetSegmentByUuid`. -/
def Board.getNetSegmentByUuid (b : Board) (u : Nat) : Option NetSegment :=
  b.netSegments.find? (fun n => n.uuid == u)

/-- `Board::getPlaneByUuid`. -/
def Board.getPlaneByUuid (b : Board) (u : Nat) : Option Plane :=
  b.planes.find? (fun p => p.uuid == u)

/-! ### Diagnostics synchronizer -/

/-- One iteration of the component loop of `Board::updateErcMessages`. -/
def ercStep (env : Env) (b : Board) (msgs : List (Nat × ErcMsg)) (cu : Nat) :
    List (Nat × ErcMsg) :=
  if env.schematicOnly cu then msgs
  else
    let device := lookupKey b.deviceInstances cu
    let msg := lookupKey msgs cu
    if device.isNone && msg.isNone then
      insortKey cu { visible := true } msgs
    else if device.isSome && msg.isSome then
      removeKey cu msgs
    else msgs

/-- `Board::updateErcMessages`: when attached, reconcile the
unplaced-component messages against the circuit's component instances and
drop messages for vanished components; when not attached, discard all. -/
def Board.updateErcMessages (env : Env) (b : Board) : Board :=
  if b.isAddedToProject then
    let msgs1 := env.componentInstances.foldl (ercStep env b) b.ercMsgs
    { b with ercMsgs := msgs1.filter (fun kv => env.componentInstances.contains kv.1) }
  else
    { b with ercMsgs := [] }

/-! ### Add / remove operations

Each returns the post-state board and the thrown exception, if any. -/

/-- `Board::addDeviceInstance`. -/
def Board.addDeviceInstance (env : Env) (b : Board) (inst : Device) :
    Board × Option BoardError :=
  if inst.boardRef ≠ b.id then (b, some .logicError)
  else if (b.getDeviceInstanceByComponentUuid inst.cmpUuid).isSome then
    (b, some .duplicateEntity)
  else if b.isAddedToProject ∧ env.attachFails inst.id then (b, some .sideEffect)
  else
    (({ b with deviceInstances := insortKey inst.cmpUuid inst b.deviceInstances
       }).updateErcMessages env, none)

/-- `Board::removeDeviceInstance`. -/
def Board.removeDeviceInstance (env : Env) (b : Board) (inst : Device) :
    Board × Option BoardError :=
  if (lookupKey b.deviceInstances inst.cmpUuid).isNone then (b, some .logicError)
  else if b.isAddedToProject ∧ env.detachFails inst.id then (b, some .sideEffect)
  else
    (({ b with deviceInstances := removeKey inst.cmpUuid b.deviceInstances
       }).updateErcMessages env, none)

/-- `Board::addNetSegment`. -/
def Board.addNetSegment (env : Env) (b : Board) (ns : NetSegment) :
    Board × Option BoardError :=
  if (∃ x ∈ b.netSegments, x.id = ns.id) ∨ ns.boardRef ≠ b.id then
    (b, some .logicError)
  else if (b.getNetSegmentByUuid ns.uuid).isSome then (b, some .duplicateEntity)
  else if b.isAddedToProject ∧ env.attachFails ns.id then (b, some .sideEffect)
  else ({ b with netSegments := b.netSegments ++ [ns] }, none)

/-- `Board::removeNetSegment`. -/
def Board.removeNetSegment (env : Env) (b : Board) (ns : NetSegment) :
    Board × Option BoardError :=
  if ¬ ∃ x ∈ b.netSegments, x.id = ns.id then (b, some .logicError)
  else if b.isAddedToProject ∧ env.detachFails ns.id then (b, some .sideEffect)
  else ({ b with netSegments := removeOneP (fun x => x.id == ns.id) b.netSegments }, none)

/-- `Board::addPlane` (note: no uuid-duplicate check in the source). -/
def Board.addPlane (env : Env) (b : Board) (p : Plane) :
    Board × Option BoardError :=
  if (∃ x ∈ b.planes, x.id = p.id) ∨ p.boardRef ≠ b.id then (b, some .logicError)
  else if b.isAddedToProject ∧ env.attachFails p.id then (b, some .sideEffect)
  else ({ b with planes := b.planes ++ [p] }, none)

/-- `Board::removePlane`. -/
def Board.removePlane (env : Env) (b : Board) (p : Plane) :
    Board × Option BoardError :=
  if ¬ ∃ x ∈ b.planes, x.id = p.id then (b, some .logicError)
  else if b.isAddedToProject ∧ env.detachFails p.id then (b, some .sideEffect)
  else ({ b with planes := removeOneP (fun x => x.id == p.id) b.planes }, none)

/-- `Board::addPolygon` (no uuid-duplicate check in the source). -/
def Board.addPolygon (env : Env) (b : Board) (p : Polygon) :
    Board × Option BoardError :=
  if (∃ x ∈ b.polygons, x.id = p.id) ∨ p.boardRef ≠ b.id then (b, some .logicError)
  else if b.isAddedToProject ∧ env.attachFails p.id then (b, some .sideEffect)
  else ({ b with polygons := b.polygons ++ [p] }, none)

/-- `Board::removePolygon`. -/
def Board.removePolygon (env : Env) (b : Board) (p : Polygon) :
    Board × Option BoardError :=
  if ¬ ∃ x ∈ b.polygons, x.id = p.id then (b, some .logicError)
  else if b.isAddedToProject ∧ env.detachFails p.id then (b, some .sideEffect)
  else ({ b with polygons := removeOneP (fun x => x.id == p.id) b.polygons }, none)

/-- `Board::addStrokeText` (no uuid-duplicate check in the source). -/
def Board.addStrokeText (env : Env) (b : Board) (t : StrokeText) :
    Board × Option BoardError :=
  if (∃ x ∈ b.strokeTexts, x.id = t.id) ∨ t.boardRef ≠ b.id then (b, some .logicError)
  else if b.isAddedToProject ∧ env.attachFails t.id then (b, some .sideEffect)
  else ({ b with strokeTexts := b.strokeTexts ++ [t] }, none)

/-- `Board::removeStrokeText`. -/
def Board.removeStrokeText (env : Env) (b : Board) (t : StrokeText) :
    Board × Option BoardError :=
  if ¬ ∃ x ∈ b.strokeTexts, x.id = t.id then (b, some .logicError)
  else if b.isAddedToProject ∧ env.detachFails t.id then (b, some .sideEffect)
  else ({ b with strokeTexts := removeOneP (fun x => x.id == t.id) b.strokeTexts }, none)

/-- `Board::addHole` (no uuid-duplicate check in the source). -/
def Board.addHole (env : Env) (b : Board) (h : Hole) :
    Board × Option BoardError :=
  if (∃ x ∈ b.holes, x.id = h.id) ∨ h.boardRef ≠ b.id then (b, some .logicError)
  else if b.isAddedToProject ∧ env.attachFails h.id then (b, some .sideEffect)
  else ({ b with holes := b.holes ++ [h] }, none)

/-- `Board::removeHole`. -/
def Board.removeHole (env : Env) (b : Board) (h : Hole) :
    Board × Option BoardError :=
  if ¬ ∃ x ∈ b.holes, x.id = h.id then (b, some .logicError)
  else if b.isAddedToProject ∧ env.detachFails h.id then (b, some .sideEffect)
  else ({ b with holes := removeOneP (fun x => x.id == h.id) b.holes }, none)

/-! ### Copper-fill rebuild pipeline -/

/-- Modelled from the spec: `BI_Plane::operator<` (outside `src/`) compares
planes by fill priority (§4.5: "sorts by priority descending ... higher
priority fills are computed first"). -/
def planeLt (p q : Plane) : Prop :=
  p.priority < q.priority

/-- The comparator passed to `std::sort` in `Board::rebuildAllPlanes` is
`!(p1 < p2)`, i.e. `q.priority ≤ p.priority`. -/
def planeGE (p q : Plane) : Prop :=
  ¬ planeLt p q

instance : DecidableRel planeGE := fun p q =>
  inferInstanceAs (Decidable (¬ p.priority < q.priority))

instance : IsTotal Plane planeGE :=
  ⟨fun p q => by
    rcases Nat.le_total q.priority p.priority with h | h
    · exact Or.inl (Nat.not_lt.mpr h)
    · exact Or.inr (Nat.not_lt.mpr h)⟩

instance : IsTrans Plane planeGE :=
  ⟨fun _ _ _ hab hbc =>
    Nat.not_lt.mpr (Nat.le_trans (Nat.not_lt.mp hbc) (Nat.not_lt.mp hab))⟩

/-- The snapshot sort of `Board::rebuildAllPlanes` (highest priority first). -/
def sortPlanes (l : List Plane) : List Plane :=
  l.insertionSort planeGE

/-- Setting one plane's calculated fragments through its pointer
(`plane->setCalculatedFragments(...)`). -/
def Board.setPlaneFragments (b : Board) (pid : Nat) (fr : List Nat) : Board :=
  { b with planes := b.planes.map (fun q => if q.id = pid then { q with fragments := fr } else q) }

/-- The per-plane loop of `Board::rebuildAllPlanes`: invoke the fragment
builder and store the result. -/
def rebuildPlanesLoop (env : Env) : List Plane → Board → Board
  | [], b => b
  | p :: rest, b => rebuildPlanesLoop env rest (b.setPlaneFragments p.id (env.fragments p.id))

/-- `Board::rebuildAllPlanes`; the second component records the builder
invocations in order (by plane identity). -/
def Board.rebuildAllPlanes (env : Env) (b : Board) : Board × List Nat :=
  let sorted := sortPlanes b.planes
  (rebuildPlanesLoop env sorted b, sorted.map Plane.id)

/-! ### Unrouted-connection (airwire) rebuild pipeline -/

/-- The `while (BI_AirWire* airWire = mAirWires.take(netsignal))` loop:
remove every airwire of signal `s`, detaching each.  `take` removes the entry
from the map before `removeFromBoard` runs, so on a detach failure the failing
airwire is already out of the collection; entries behind it stay.  Returns the
remaining entries and whether the loop finished without an exception. -/
def detachAirWires (env : Env) (s : Nat) :
    List (Nat × AirWire) → List (Nat × AirWire) × Bool
  | [] => ([], true)
  | kv :: rest =>
    if kv.1 = s then
      if env.detachFails kv.2.id then (rest, false)
      else detachAirWires env s rest
    else
      let (r, ok) := detachAirWires env s rest
      (kv :: r, ok)

/-- Materialize one airwire per point-pair returned by the builder, attaching
each (`airWire->addToBoard()` can throw; a failing airwire is destroyed
before insertion). -/
def addAirWiresLoop (env : Env) (s : Nat) :
    List (Nat × Nat) → Board → Board × Bool
  | [], b => (b, true)
  | pr :: rest, b =>
    let aw : AirWire := { id := b.nextId, netSignal := s, p1 := pr.1, p2 := pr.2 }
    let b1 := { b with nextId := b.nextId + 1 }
    if env.attachFails aw.id then (b1, false)
    else addAirWiresLoop env s rest { b1 with airWires := b1.airWires ++ [(s, aw)] }

/-- One iteration of the signal loop of `Board::triggerAirWiresRebuild`:
remove the stale airwires of the signal, then rebuild them if the signal is
still present and active. -/
def rebuildSignal (env : Env) (s : Nat) (b : Board) : Board × Bool :=
  let res := detachAirWires env s b.airWires
  let b1 := { b with airWires := res.1 }
  if !res.2 then (b1, false)
  else if env.netSignalActive s then
    match env.buildAirWires s with
    | none => (b1, false)
    | some pairs => addAirWiresLoop env s pairs b1
  else (b1, true)

/-- The `foreach` over the scheduled signals; stops at the first exception
(which jumps to the `catch` block). -/
def rebuildSignalsLoop (env : Env) : List Nat → Board → Board × Bool
  | [], b => (b, true)
  | s :: rest, b =>
    let res := rebuildSignal env s b
    if res.2 then rebuildSignalsLoop env rest res.1 else (res.1, false)

/-- `Board::triggerAirWiresRebuild`: early-out when not attached; otherwise
process the pending signals, and clear the pending set only if no exception
occurred (the `clear()` sits inside the `try` block; the `catch` only logs). -/
def Board.triggerAirWiresRebuild (env : Env) (b : Board) : Board :=
  if !b.isAddedToProject then b
  else
    let res := rebuildSignalsLoop env b.scheduledNetSignals b
    if res.2 then { res.1 with scheduledNetSignals := [] } else res.1

/-- Whether the signal loop of `triggerAirWiresRebuild` runs to completion
without an exception. -/
def Board.airWiresRebuildOk (env : Env) (b : Board) : Bool :=
  (rebuildSignalsLoop env b.scheduledNetSignals b).2

/-- `Board::forceAirWiresRebuild`: seed the pending set with every net signal
of the circuit plus every signal that currently has an airwire, then trigger. -/
def Board.forceAirWiresRebuild (env : Env) (b : Board) : Board :=
  let pend := uniteList (uniteList b.scheduledNetSignals env.circuitNetSignals)
    (b.airWires.map Prod.fst)
  let b1 : Board := { b with scheduledNetSignals := pend }
  b1.triggerAirWiresRebuild env

/-! ### Attach transaction (`Board::addToProject`) -/

/-- The attach loop of `Board::addToProject` with its `ScopeGuardList`:
attach each item in sequence, pushing a detach guard; on the first failure the
guards run in reverse order of attachment.

Modelled from the spec: `ScopeGuardList` (outside `src/`) unwinds its guards
in reverse order on failure, best-effort (§4.4, §7: compensation "rolls back
prior side effects in reverse order and re-propagates the original failure").
On failure the error value carries the full side-effect log. -/
def attachLoop (env : Env) :
    List Item → List Nat → List Event → (List Event) ⊕ (List Event × List Nat)
  | [], sgl, evs => .inr (evs, sgl)
  | it :: rest, sgl, evs =>
    if env.attachFails it.id then
      .inl (evs ++ sgl.map Event.detach)
    else
      attachLoop env rest (it.id :: sgl) (evs ++ [Event.attach it.id])

/-- `Board::addToProject`: fail if already attached; attach all items with
rollback; move the directory (can throw, also rolled back); then set the
attached flag, force a full airwire rebuild and resynchronize diagnostics.
Returns the post-state, the log of side-effect invocations and the error. -/
def Board.addToProject (env : Env) (b : Board) :
    Board × List Event × Option BoardError :=
  if b.isAddedToProject then (b, [], some .logicError)
  else
    match attachLoop env b.getAllItems [] [] with
    | .inl evs => (b, evs, some .sideEffect)
    | .inr (evs, sgl) =>
      if env.moveDirectoryFails then
        (b, evs ++ sgl.map Event.detach, some .sideEffect)
      else
        let b1 := { b with isAddedToProject := true }
        let b2 := b1.forceAirWiresRebuild env
        let b3 := b2.updateErcMessages env
        (b3, evs, none)

/-! ### `Board::copyFrom` -/

/-- Sequencing helper: exceptions propagate out of the copy loops, leaving
the partially mutated board behind. -/
def seqOp (r : Board × Option BoardError) (f : Board → Board × Option BoardError) :
    Board × Option BoardError :=
  match r with
  | (bb, some e) => (bb, some e)
  | (bb, none) => f bb

/-- Draw a fresh object identity / uuid (`new` / `Uuid::createRandom`). -/
def Board.withFresh (b : Board) : Nat × Board :=
  (b.nextId, { b with nextId := b.nextId + 1 })

/-- `Board::copyFrom`: deep-copy every entity of `other` into `b` with fresh
identities, via the ordinary add operations.  Device copies keep the source's
component-instance key; plane copies take over all settings including the
calculated fragments (`copy->setCalculatedFragments(plane->getFragments())`).
The net-segment internals (vias/netpoints/netlines and the anchor remap) are
carried opaquely in `contents`; layer/grid/rule settings are outside the
collections model. -/
def Board.copyFrom (env : Env) (b other : Board) : Board × Option BoardError :=
  let r1 := other.deviceInstances.foldl (fun r kv =>
    seqOp r (fun bb =>
      let fr := bb.withFresh
      let copy : Device :=
        { id := fr.1, boardRef := fr.2.id, cmpUuid := kv.2.cmpUuid,
          position := kv.2.position, rotation := kv.2.rotation,
          mirrored := kv.2.mirrored, attributes := kv.2.attributes,
          strokeTexts := kv.2.strokeTexts }
      fr.2.addDeviceInstance env copy)) (b, none)
  let r2 := other.netSegments.foldl (fun r ns =>
    seqOp r (fun bb =>
      let fr := bb.withFresh
      let copy : NetSegment :=
        { id := fr.1, boardRef := fr.2.id, uuid := fr.1,
          netSignal := ns.netSignal, contents := ns.contents }
      fr.2.addNetSegment env copy)) r1
  let r3 := other.planes.foldl (fun r p =>
    seqOp r (fun bb =>
      let fr := bb.withFresh
      let copy : Plane :=
        { id := fr.1, boardRef := fr.2.id, uuid := fr.1,
          layerName := p.layerName, netSignal := p.netSignal,
          outline := p.outline, minWidth := p.minWidth,
          minClearance := p.minClearance, keepOrphans := p.keepOrphans,
          priority := p.priority, connectStyle := p.connectStyle,
          visible := p.visible, fragments := p.fragments }
      fr.2.addPlane env copy)) r2
  let r4 := other.polygons.foldl (fun r p =>
    seqOp r (fun bb =>
      let fr := bb.withFresh
      let copy : Polygon :=
        { id := fr.1, boardRef := fr.2.id, uuid := fr.1, outline := p.outline }
      fr.2.addPolygon env copy)) r3
  let r5 := other.strokeTexts.foldl (fun r t =>
    seqOp r (fun bb =>
      let fr := bb.withFresh
      let copy : StrokeText :=
        { id := fr.1, boardRef := fr.2.id, uuid := fr.1, text := t.text }
      fr.2.addStrokeText env copy)) r4
  let r6 := other.holes.foldl (fun r h =>
    seqOp r (fun bb =>
      let fr := bb.withFresh
      let copy : Hole :=
        { id := fr.1, boardRef := fr.2.id, uuid := fr.1, hole := h.hole }
      fr.2.addHole env copy)) r5
  r6

/-! ### `CmdBoardPolygonRemove`

The command stores the board and the polygon reference at construction time
(`mBoard(polygon.getBoard()), mPolygon(polygon)`); `performExecute` and
`performRedo` call `Board::removePolygon`, `performUndo` calls
`Board::addPolygon` with the same reference.  The surrounding `UndoCommand`
state machine (Initial → Executed ⇄ Undone) lives outside `src/`; the claims
are settled against the command's own forward/inverse effects. -/

/-- The state the command captures at construction. -/
structure CmdBoardPolygonRemove where
  polygon : Polygon
  deriving DecidableEq, Repr

/-- `CmdBoardPolygonRemove::performExecute` (delegates to `performRedo`). -/
def CmdBoardPolygonRemove.performExecute (env : Env) (cmd : CmdBoardPolygonRemove)
    (b : Board) : Board × Option BoardError :=
  b.removePolygon env cmd.polygon

/-- `CmdBoardPolygonRemove::performUndo`. -/
def CmdBoardPolygonRemove.performUndo (env : Env) (cmd : CmdBoardPolygonRemove)
    (b : Board) : Board × Option BoardError :=
  b.addPolygon env cmd.polygon

/-- `CmdBoardPolygonRemove::performRedo`. -/
def CmdBoardPolygonRemove.performRedo (env : Env) (cmd : CmdBoardPolygonRemove)
    (b : Board) : Board × Option BoardError :=
  b.removePolygon env cmd.polygon

/-! ### Shared concrete boards and environments for witnesses -/

/-- A collaborator environment in which every side effect succeeds. -/
def baseEnv : Env :=
  { attachFails := fun _ => false, detachFails := fun _ => false,
    fragments := fun i => [i], circuitNetSignals := [],
    netSignalActive := fun _ => false, buildAirWires := fun _ => some [],
    componentInstances := [], schematicOnly := fun _ => false,
    moveDirectoryFails := false }

/-- A freshly created, empty, unattached board. -/
def emptyBoard : Board :=
  { id := 0, isAddedToProject := false, deviceInstances := [],
    netSegments := [], planes := [], polygons := [],
    strokeTexts := [], holes := [], airWires := [],
    scheduledNetSignals := [], ercMsgs := [], nextId := 100 }

/-! ### Helper lemmas -/

theorem foldl_invariant {α β : Type} (P : β → Prop) (f : β → α → β) (l : List α)
    (init : β) (h0 : P init) (hstep : ∀ acc a, P acc → a ∈ l → P (f acc a)) :
    P (l.foldl f init) := by
  induction l generalizing init with
  | nil => exact h0
  | cons a rest ih =>
    exact ih (f init a) (hstep init a h0 (List.mem_cons_self a rest))
      (fun acc x hacc hx => hstep acc x hacc (List.mem_cons_of_mem a hx))

theorem removeOneP_length_of_mem {α : Type} (p : α → Bool) (l : List α)
    (x : α) (hx : x ∈ l) (hp : p x = true) :
    (removeOneP p l).length + 1 = l.length := by
  induction l with
  | nil => cases hx
  | cons y ys ih =>
    by_cases hy : p y = true
    · simp [removeOneP, hy]
    · rcases List.mem_cons.mp hx with rfl | hx2
      · exact absurd hp hy
      · simp only [removeOneP, hy, Bool.false_eq_true, if_false, List.length_cons]
        rw [← ih hx2]

theorem removeOneP_append_not {α : Type} (p : α → Bool) (l1 l2 : List α)
    (h : ∀ x ∈ l1, p x = false) :
    removeOneP p (l1 ++ l2) = l1 ++ removeOneP p l2 := by
  induction l1 with
  | nil => rfl
  | cons y ys ih =>
    have hy := h y (List.mem_cons_self y ys)
    have ih2 := ih (fun x hx => h x (List.mem_cons_of_mem y hx))
    simp only [List.cons_append, removeOneP, hy, Bool.false_eq_true, if_false,
      List.append_eq, ih2]

theorem mem_of_mem_removeOneP {α : Type} (p : α → Bool) (l : List α)
    (y : α) (hy : y ∈ removeOneP p l) : y ∈ l := by
  induction l with
  | nil => cases hy
  | cons z zs ih =>
    by_cases hz : p z = true
    · simp only [removeOneP, hz, if_true] at hy
      exact List.mem_cons_of_mem z hy
    · simp only [removeOneP, hz, Bool.false_eq_true, if_false] at hy
      rcases List.mem_cons.mp hy with rfl | hy2
      · exact List.mem_cons_self y zs
      · exact List.mem_cons_of_mem z (ih hy2)

theorem removeOneP_no_match {α : Type} (f : α → Nat) (c : Nat) (l : List α)
    (hnd : (l.map f).Nodup) :
    ∀ y ∈ removeOneP (fun x => f x == c) l, f y ≠ c := by
  induction l with
  | nil => intro y hy; cases hy
  | cons z zs ih =>
    have hnd2 : (zs.map f).Nodup := (List.nodup_cons.mp hnd).2
    have hznot : f z ∉ zs.map f := (List.nodup_cons.mp hnd).1
    intro y hy
    by_cases hz : f z = c
    · simp only [removeOneP, hz, beq_self_eq_true, if_true] at hy
      intro hc
      exact hznot (hz ▸ hc ▸ List.mem_map_of_mem f hy)
    · have hzb : (f z == c) = false := beq_eq_false_iff_ne.mpr hz
      simp only [removeOneP, hzb, Bool.false_eq_true, if_false] at hy
      rcases List.mem_cons.mp hy with rfl | hy2
      · exact hz
      · exact ih hnd2 y hy2

/-! ### C1: transactional attach -/

theorem attachLoop_failure (env : Env) (pre : List Item) (it : Item)
    (post : List Item) (sgl : List Nat) (evs : List Event)
    (hpre : ∀ x ∈ pre, env.attachFails x.id = false)
    (hfail : env.attachFails it.id = true) :
    attachLoop env (pre ++ it :: post) sgl evs =
      .inl (evs ++ pre.map (fun x => Event.attach x.id) ++
        ((pre.map (fun x => Event.detach x.id)).reverse ++ sgl.map Event.detach)) := by
  induction pre generalizing sgl evs with
  | nil => simp [attachLoop, hfail]
  | cons x pre2 ih =>
    have hx := hpre x (List.mem_cons_self x pre2)
    have hpre2 : ∀ y ∈ pre2, env.attachFails y.id = false :=
      fun y hy => hpre y (List.mem_cons_of_mem x hy)
    simp only [List.cons_append, attachLoop, hx, Bool.false_eq_true, if_false,
      List.append_eq]
    rw [ih _ _ hpre2]
    simp [List.append_assoc, List.reverse_cons]

theorem count_detach_map_attach (l : List Item) (i : Nat) :
    (l.map (fun x => Event.attach x.id)).count (Event.detach i) = 0 := by
  rw [List.count_eq_zero]
  intro h
  rcases List.mem_map.mp h with ⟨x, _, hx⟩
  cases hx

theorem count_detach_map_detach (l : List Item) (i : Nat) :
    (l.map (fun x => Event.detach x.id)).count (Event.detach i) =
      (l.map Item.id).count i := by
  induction l with
  | nil => rfl
  | cons x xs ih =>
    simp only [List.map_cons, List.count_cons, ih]
    congr 1
    by_cases h : x.id = i
    · simp [h]
    · simp [h, fun hc : Event.detach x.id = Event.detach i => h (Event.detach.inj hc)]

/-- C1: for a board not yet attached to its project, if the attach side
effect of the item after the prefix `pre` of `getAllItems()` fails during
`addToProject`, then the call returns with the original failure, every item
of `pre` has had its detach side effect invoked exactly once, in reverse
order of attachment, and the board (in particular its attached flag) is
unchanged. -/
theorem c1_addToProject_rollback (env : Env) (b : Board) (pre : List Item)
    (it : Item) (post : List Item)
    (hflag : b.isAddedToProject = false)
    (hitems : b.getAllItems = pre ++ it :: post)
    (hpre : ∀ x ∈ pre, env.attachFails x.id = false)
    (hfail : env.attachFails it.id = true)
    (hnodup : (pre.map Item.id).Nodup) :
    b.addToProject env =
      (b, pre.map (fun x => Event.attach x.id) ++
        (pre.map (fun x => Event.detach x.id)).reverse, some .sideEffect) ∧
    (b.addToProject env).1.isAddedToProject = false ∧
    ∀ x ∈ pre, (b.addToProject env).2.1.count (Event.detach x.id) = 1 := by
  have hmain : b.addToProject env =
      (b, pre.map (fun x => Event.attach x.id) ++
        (pre.map (fun x => Event.detach x.id)).reverse, some .sideEffect) := by
    unfold Board.addToProject
    rw [hflag, hitems]
    simp only [Bool.false_eq_true, if_false]
    rw [attachLoop_failure env pre it post [] [] hpre hfail]
    simp
  refine ⟨hmain, ?_, ?_⟩
  · rw [hmain]; exact hflag
  · intro x hx
    rw [hmain]
    simp only [List.count_append, count_detach_map_attach, List.count_reverse,
      count_detach_map_detach, Nat.zero_add]
    exact List.count_eq_one_of_mem hnodup (List.mem_map_of_mem Item.id hx)

def polyC1a : Polygon := { id := 1, boardRef := 0, uuid := 11, outline := 0 }

def polyC1b : Polygon := { id := 2, boardRef := 0, uuid := 12, outline := 0 }

def holeC1 : Hole := { id := 3, boardRef := 0, uuid := 13, hole := 0 }

def envC1 : Env := { baseEnv with attachFails := fun i => i == 3 }

def boardC1 : Board := { emptyBoard with polygons := [polyC1a, polyC1b], holes := [holeC1] }

/-- Witness for C1: on a board with two polygons and a hole whose attach side
effect fails, `addToProject` attaches the polygons, detaches them again in
reverse order, each exactly once, and returns the failure with the board
unchanged. -/
theorem c1_addToProject_rollback_witness :
    boardC1.addToProject envC1 =
      (boardC1, [Event.attach 1, Event.attach 2, Event.detach 2, Event.detach 1],
        some .sideEffect) ∧
    (boardC1.addToProject envC1).1.isAddedToProject = false ∧
    (boardC1.addToProject envC1).2.1.count (Event.detach 1) = 1 ∧
    (boardC1.addToProject envC1).2.1.count (Event.detach 2) = 1 := by
  have h := c1_addToProject_rollback envC1 boardC1
    [Item.polygon polyC1a, Item.polygon polyC1b] (Item.hole holeC1) []
    (by decide) (by decide) (by decide) (by decide) (by decide)
  refine ⟨by rw [h.1]; rfl, h.2.1, ?_, ?_⟩
  · exact h.2.2 (Item.polygon polyC1a) (by decide)
  · exact h.2.2 (Item.polygon polyC1b) (by decide)

/-! ### C2: duplicate keys -/

def planeC2 : Plane :=
  { id := 10, boardRef := 0, uuid := 10, layerName := 0, netSignal := 0,
    outline := 0, minWidth := 0, minClearance := 0, keepOrphans := false,
    priority := 5, connectStyle := 0, visible := true, fragments := [] }

def planeC2dup : Plane := { planeC2 with id := 40, priority := 2 }

def boardC2 : Board := { emptyBoard with planes := [planeC2] }

/-- Counterexample to C2: `addPlane` performs no key-uniqueness check.  On a
board already holding a plane with uuid 10, adding a distinct plane instance
with the same uuid does not fail with `DuplicateEntity` — it succeeds and
changes the collection. -/
theorem c2_counterexample :
    (boardC2.getPlaneByUuid planeC2dup.uuid).isSome = true ∧
    (boardC2.addPlane baseEnv planeC2dup).2 ≠ some BoardError.duplicateEntity ∧
    (boardC2.addPlane baseEnv planeC2dup).1 ≠ boardC2 := by
  decide

/-- C2 as amended: adding an entity whose key duplicates a member's key fails
with `DuplicateEntity` and leaves the document unchanged for device instances
(component-instance key) and net segments (uuid); for planes, polygons,
stroke texts and holes no key-uniqueness check is performed — the add
succeeds and appends the new instance even when its uuid duplicates a
member's uuid. -/
theorem c2_duplicate_key_amended (env : Env) (b : Board) :
    (∀ d : Device, d.boardRef = b.id →
      (b.getDeviceInstanceByComponentUuid d.cmpUuid).isSome = true →
      b.addDeviceInstance env d = (b, some .duplicateEntity)) ∧
    (∀ ns : NetSegment, ns.boardRef = b.id →
      (¬ ∃ x ∈ b.netSegments, x.id = ns.id) →
      (b.getNetSegmentByUuid ns.uuid).isSome = true →
      b.addNetSegment env ns = (b, some .duplicateEntity)) ∧
    (∀ p : Plane, p.boardRef = b.id → (¬ ∃ x ∈ b.planes, x.id = p.id) →
      ¬ (b.isAddedToProject = true ∧ env.attachFails p.id = true) →
      (b.getPlaneByUuid p.uuid).isSome = true →
      b.addPlane env p = ({ b with planes := b.planes ++ [p] }, none)) ∧
    (∀ p : Polygon, p.boardRef = b.id → (¬ ∃ x ∈ b.polygons, x.id = p.id) →
      ¬ (b.isAddedToProject = true ∧ env.attachFails p.id = true) →
      (∃ x ∈ b.polygons, x.uuid = p.uuid) →
      b.addPolygon env p = ({ b with polygons := b.polygons ++ [p] }, none)) ∧
    (∀ t : StrokeText, t.boardRef = b.id → (¬ ∃ x ∈ b.strokeTexts, x.id = t.id) →
      ¬ (b.isAddedToProject = true ∧ env.attachFails t.id = true) →
      (∃ x ∈ b.strokeTexts, x.uuid = t.uuid) →
      b.addStrokeText env t = ({ b with strokeTexts := b.strokeTexts ++ [t] }, none)) ∧
    (∀ h : Hole, h.boardRef = b.id → (¬ ∃ x ∈ b.holes, x.id = h.id) →
      ¬ (b.isAddedToProject = true ∧ env.attachFails h.id = true) →
      (∃ x ∈ b.holes, x.uuid = h.uuid) →
      b.addHole env h = ({ b with holes := b.holes ++ [h] }, none)) := by
  refine ⟨?_, ?_, ?_, ?_, ?_, ?_⟩
  · intro d hbr hdup
    unfold Board.addDeviceInstance
    rw [if_neg (by rw [hbr]; exact fun h => h rfl), if_pos hdup]
  · intro ns hbr hid hdup
    unfold Board.addNetSegment
    rw [if_neg (by rintro (h | h); exacts [hid h, h hbr]), if_pos hdup]
  · intro p hbr hid hse _
    unfold Board.addPlane
    rw [if_neg (by rintro (h | h); exacts [hid h, h hbr]),
      if_neg (by intro h; exact hse ⟨h.1, h.2⟩)]
  · intro p hbr hid hse _
    unfold Board.addPolygon
    rw [if_neg (by rintro (h | h); exacts [hid h, h hbr]),
      if_neg (by intro h; exact hse ⟨h.1, h.2⟩)]
  · intro t hbr hid hse _
    unfold Board.addStrokeText
    rw [if_neg (by rintro (h | h); exacts [hid h, h hbr]),
      if_neg (by intro h; exact hse ⟨h.1, h.2⟩)]
  · intro h hbr hid hse _
    unfold Board.addHole
    rw [if_neg (by rintro (hh | hh); exacts [hid hh, hh hbr]),
      if_neg (by intro hh; exact hse ⟨hh.1, hh.2⟩)]

def devC2 : Device :=
  { id := 5, boardRef := 0, cmpUuid := 5, position := 0, rotation := 0,
    mirrored := false, attributes := 0, strokeTexts := [] }

def devC2dup : Device := { devC2 with id := 50, position := 9 }

def nsC2 : NetSegment := { id := 6, boardRef := 0, uuid := 16, netSignal := 1, contents := 0 }

def nsC2dup : NetSegment := { nsC2 with id := 51, contents := 9 }

def polyC2 : Polygon := { id := 11, boardRef := 0, uuid := 21, outline := 0 }

def polyC2dup : Polygon := { polyC2 with id := 53 }

def stC2 : StrokeText := { id := 12, boardRef := 0, uuid := 22, text := 0 }

def stC2dup : StrokeText := { stC2 with id := 54 }

def holeC2 : Hole := { id := 13, boardRef := 0, uuid := 23, hole := 0 }

def holeC2dup : Hole := { holeC2 with id := 55 }

def boardC2w : Board :=
  { emptyBoard with
    deviceInstances := [(5, devC2)], netSegments := [nsC2],
    planes := [planeC2], polygons := [polyC2], strokeTexts := [stC2],
    holes := [holeC2] }

/-- Witness for the amended C2 on a concrete board holding one entity of
every kind: duplicate-key adds fail for devices and net segments, and
succeed (appending) for planes, polygons, stroke texts and holes. -/
theorem c2_duplicate_key_amended_witness :
    boardC2w.addDeviceInstance baseEnv devC2dup = (boardC2w, some .duplicateEntity) ∧
    boardC2w.addNetSegment baseEnv nsC2dup = (boardC2w, some .duplicateEntity) ∧
    boardC2w.addPlane baseEnv planeC2dup =
      ({ boardC2w with planes := boardC2w.planes ++ [planeC2dup] }, none) ∧
    boardC2w.addPolygon baseEnv polyC2dup =
      ({ boardC2w with polygons := boardC2w.polygons ++ [polyC2dup] }, none) ∧
    boardC2w.addStrokeText baseEnv stC2dup =
      ({ boardC2w with strokeTexts := boardC2w.strokeTexts ++ [stC2dup] }, none) ∧
    boardC2w.addHole baseEnv holeC2dup =
      ({ boardC2w with holes := boardC2w.holes ++ [holeC2dup] }, none) := by
  have h := c2_duplicate_key_amended baseEnv boardC2w
  exact ⟨h.1 devC2dup (by decide) (by decide),
    h.2.1 nsC2dup (by decide) (by decide) (by decide),
    h.2.2.1 planeC2dup (by decide) (by decide) (by decide) (by decide),
    h.2.2.2.1 polyC2dup (by decide) (by decide) (by decide) (by decide),
    h.2.2.2.2.1 stC2dup (by decide) (by decide) (by decide) (by decide),
    h.2.2.2.2.2 holeC2dup (by decide) (by decide) (by decide) (by decide)⟩

/-! ### C3: remove-command round trip -/

theorem removePolygon_spec (env : Env) (b : Board) (p : Polygon)
    (hmem : p ∈ b.polygons)
    (hdet : ¬ (b.isAddedToProject = true ∧ env.detachFails p.id = true)) :
    b.removePolygon env p =
      ({ b with polygons := removeOneP (fun x => x.id == p.id) b.polygons }, none) := by
  unfold Board.removePolygon
  rw [if_neg (not_not_intro ⟨p, hmem, rfl⟩),
    if_neg (fun h => hdet ⟨h.1, h.2⟩)]

theorem addPolygon_spec (env : Env) (b : Board) (p : Polygon)
    (hid : ¬ ∃ x ∈ b.polygons, x.id = p.id) (hbr : p.boardRef = b.id)
    (hatt : ¬ (b.isAddedToProject = true ∧ env.attachFails p.id = true)) :
    b.addPolygon env p = ({ b with polygons := b.polygons ++ [p] }, none) := by
  unfold Board.addPolygon
  rw [if_neg (by rintro (h | h); exacts [hid h, h hbr]),
    if_neg (fun h => hatt ⟨h.1, h.2⟩)]

/-- C3: for a remove-command on polygon `E` of a document whose polygon
collection has `n` members, `execute` leaves `n − 1` members with `E` gone;
`undo` restores `n` members re-inserting the very same instance `E`; `redo`
repeats the execute transition exactly (it produces the identical
collection). -/
theorem c3_cmd_remove_roundtrip (env : Env) (b : Board)
    (cmd : CmdBoardPolygonRemove)
    (hmem : cmd.polygon ∈ b.polygons)
    (hnodup : (b.polygons.map Polygon.id).Nodup)
    (hbr : cmd.polygon.boardRef = b.id)
    (hdet : env.detachFails cmd.polygon.id = false)
    (hatt : env.attachFails cmd.polygon.id = false) :
    (cmd.performExecute env b).2 = none ∧
    (cmd.performExecute env b).1.polygons.length + 1 = b.polygons.length ∧
    (∀ q ∈ (cmd.performExecute env b).1.polygons, q.id ≠ cmd.polygon.id) ∧
    (cmd.performUndo env (cmd.performExecute env b).1).2 = none ∧
    (cmd.performUndo env (cmd.performExecute env b).1).1.polygons.length =
      b.polygons.length ∧
    cmd.polygon ∈ (cmd.performUndo env (cmd.performExecute env b).1).1.polygons ∧
    (cmd.performUndo env (cmd.performExecute env b).1).1.polygons =
      (cmd.performExecute env b).1.polygons ++ [cmd.polygon] ∧
    (cmd.performRedo env (cmd.performUndo env (cmd.performExecute env b).1).1).2 = none ∧
    (cmd.performRedo env (cmd.performUndo env (cmd.performExecute env b).1).1).1.polygons =
      (cmd.performExecute env b).1.polygons := by
  have hdet2 : ∀ c : Bool, ¬ (c = true ∧ env.detachFails cmd.polygon.id = true) :=
    fun c h => by rw [hdet] at h; exact Bool.false_ne_true h.2
  have hatt2 : ∀ c : Bool, ¬ (c = true ∧ env.attachFails cmd.polygon.id = true) :=
    fun c h => by rw [hatt] at h; exact Bool.false_ne_true h.2
  have hnomatch := removeOneP_no_match Polygon.id cmd.polygon.id b.polygons hnodup
  have h1 : b.removePolygon env cmd.polygon =
      ({ b with polygons := removeOneP (fun x => x.id == cmd.polygon.id) b.polygons },
        none) :=
    removePolygon_spec env b cmd.polygon hmem (hdet2 _)
  have h2 : Board.addPolygon env
      { b with polygons := removeOneP (fun x => x.id == cmd.polygon.id) b.polygons }
      cmd.polygon =
      ({ b with polygons := removeOneP (fun x => x.id == cmd.polygon.id) b.polygons
          ++ [cmd.polygon] }, none) := by
    refine addPolygon_spec env _ cmd.polygon ?_ hbr (hatt2 _)
    rintro ⟨x, hx, hxid⟩
    exact hnomatch x hx hxid
  have hnom2 : ∀ x ∈ removeOneP (fun x => x.id == cmd.polygon.id) b.polygons,
      (x.id == cmd.polygon.id) = false :=
    fun x hx => beq_eq_false_iff_ne.mpr (hnomatch x hx)
  have h3 : Board.removePolygon env
      { b with polygons := removeOneP (fun x => x.id == cmd.polygon.id) b.polygons
          ++ [cmd.polygon] } cmd.polygon =
      ({ b with polygons := removeOneP (fun x => x.id == cmd.polygon.id) b.polygons },
        none) := by
    have hspec := removePolygon_spec env
      { b with polygons := removeOneP (fun x => x.id == cmd.polygon.id) b.polygons
          ++ [cmd.polygon] } cmd.polygon
      (List.mem_append_right _ (List.mem_singleton.mpr rfl)) (hdet2 _)
    rw [hspec, removeOneP_append_not _ _ _ hnom2]
    simp [removeOneP]
  have hlen : (removeOneP (fun x => x.id == cmd.polygon.id) b.polygons).length + 1 =
      b.polygons.length :=
    removeOneP_length_of_mem _ b.polygons cmd.polygon hmem (by simp)
  simp only [CmdBoardPolygonRemove.performExecute, CmdBoardPolygonRemove.performUndo,
    CmdBoardPolygonRemove.performRedo, h1, h2, h3]
  refine ⟨trivial, hlen, fun q hq => hnomatch q hq, trivial, ?_, ?_, trivial, trivial,
    trivial⟩
  · simp only [List.length_append, List.length_singleton]
    exact hlen
  · exact List.mem_append_right _ (List.mem_singleton.mpr rfl)

def polyC3a : Polygon := { id := 21, boardRef := 0, uuid := 31, outline := 4 }

def polyC3b : Polygon := { id := 22, boardRef := 0, uuid := 32, outline := 5 }

def boardC3 : Board := { emptyBoard with polygons := [polyC3a, polyC3b] }

def cmdC3 : CmdBoardPolygonRemove := { polygon := polyC3a }

/-- Witness for C3 on a concrete two-polygon board. -/
theorem c3_cmd_remove_roundtrip_witness :
    (cmdC3.performExecute baseEnv boardC3).2 = none ∧
    (cmdC3.performExecute baseEnv boardC3).1.polygons.length + 1 =
      boardC3.polygons.length ∧
    cmdC3.polygon ∈
      (cmdC3.performUndo baseEnv (cmdC3.performExecute baseEnv boardC3).1).1.polygons ∧
    (cmdC3.performRedo baseEnv
        (cmdC3.performUndo baseEnv (cmdC3.performExecute baseEnv boardC3).1).1).1.polygons =
      (cmdC3.performExecute baseEnv boardC3).1.polygons := by
  have h := c3_cmd_remove_roundtrip baseEnv boardC3 cmdC3
    (by decide) (by decide) (by decide) (by decide) (by decide)
  exact ⟨h.1, h.2.1, h.2.2.2.2.2.1, h.2.2.2.2.2.2.2.2⟩

/-! ### C4: copper-fill rebuild ordering -/

/-- Storing the fragment builder's result for one plane. -/
def updFrag (env : Env) (q : Plane) : Plane :=
  { q with fragments := env.fragments q.id }

theorem rebuildPlanesLoop_planes (env : Env) (l : List Plane) (b : Board) :
    (rebuildPlanesLoop env l b).planes =
      b.planes.map (fun q => if ∃ x ∈ l, x.id = q.id then updFrag env q else q) := by
  induction l generalizing b with
  | nil => simp [rebuildPlanesLoop]
  | cons p rest ih =>
    rw [rebuildPlanesLoop, ih]
    show (b.planes.map fun q => if q.id = p.id then
        { q with fragments := env.fragments p.id } else q).map
        (fun q => if ∃ x ∈ rest, x.id = q.id then updFrag env q else q) = _
    rw [List.map_map]
    refine List.map_congr_left (fun q _ => ?_)
    by_cases hpq : q.id = p.id
    · simp only [Function.comp_apply]
      rw [if_pos hpq]
      have hrec : ({ q with fragments := env.fragments p.id } : Plane) = updFrag env q := by
        rw [updFrag, hpq]
      rw [hrec, if_pos (⟨p, List.mem_cons_self p rest, hpq.symm⟩ :
        ∃ x ∈ p :: rest, x.id = q.id)]
      by_cases hrest : ∃ x ∈ rest, x.id = (updFrag env q).id
      · rw [if_pos hrest]; rfl
      · rw [if_neg hrest]
    · simp only [Function.comp_apply]
      rw [if_neg hpq]
      have hiff : (∃ x ∈ rest, x.id = q.id) ↔ (∃ x ∈ p :: rest, x.id = q.id) := by
        constructor
        · rintro ⟨x, hx, hxq⟩; exact ⟨x, List.mem_cons_of_mem p hx, hxq⟩
        · rintro ⟨x, hx, hxq⟩
          rcases List.mem_cons.mp hx with rfl | hx2
          · exact absurd hxq.symm hpq
          · exact ⟨x, hx2, hxq⟩
      by_cases hrest : ∃ x ∈ rest, x.id = q.id
      · rw [if_pos hrest, if_pos (hiff.mp hrest)]
      · rw [if_neg hrest, if_neg (fun hc => hrest (hiff.mpr hc))]

def planeC4a : Plane :=
  { id := 10, boardRef := 0, uuid := 110, layerName := 0, netSignal := 0,
    outline := 0, minWidth := 0, minClearance := 0, keepOrphans := false,
    priority := 5, connectStyle := 0, visible := true, fragments := [] }

def planeC4b : Plane := { planeC4a with id := 20, uuid := 120, priority := 1 }

def planeC4c : Plane := { planeC4a with id := 30, uuid := 130, priority := 3 }

def boardC4 : Board := { emptyBoard with planes := [planeC4a, planeC4b, planeC4c] }

/-- C4: `rebuildAllPlanes` always recomputes every plane: the fragment
builder is invoked once per plane, following the snapshot sorted with the
source's comparator (highest priority first, a permutation of the plane
collection, descending in priority), and each plane's derived-fragments
field receives the builder's result.  In particular, for planes with
priorities [5, 1, 3] the builder runs on the priority-5 plane, then the
priority-3 plane, then the priority-1 plane. -/
theorem c4_rebuildAllPlanes (env : Env) (b : Board) :
    (b.rebuildAllPlanes env).2 = (sortPlanes b.planes).map Plane.id ∧
    List.Perm (sortPlanes b.planes) b.planes ∧
    (sortPlanes b.planes).Sorted planeGE ∧
    (b.rebuildAllPlanes env).1.planes = b.planes.map (updFrag env) ∧
    (boardC4.rebuildAllPlanes env).2 = [10, 30, 20] := by
  refine ⟨rfl, List.perm_insertionSort planeGE b.planes,
    List.sorted_insertionSort planeGE b.planes, ?_, ?_⟩
  · show (rebuildPlanesLoop env (sortPlanes b.planes) b).planes = _
    rw [rebuildPlanesLoop_planes]
    refine List.map_congr_left (fun q hq => ?_)
    have hmem : q ∈ sortPlanes b.planes :=
      (List.perm_insertionSort planeGE b.planes).symm.subset hq
    exact if_pos ⟨q, hmem, rfl⟩
  · show (sortPlanes boardC4.planes).map Plane.id = [10, 30, 20]
    decide

/-! ### C5: isEmpty -/

def airC5 : AirWire := { id := 50, netSignal := 1, p1 := 0, p2 := 1 }

def boardC5 : Board := { emptyBoard with airWires := [(1, airC5)] }

/-- Counterexample to C5: `isEmpty` does not consult the airwire set.  A
board whose only entities are airwires reports `isEmpty() = true` although
its airwire collection is nonempty, so "isEmpty iff every collection
including airwires is empty" fails. -/
theorem c5_counterexample :
    ¬ (boardC5.isEmpty = true ↔
      (boardC5.deviceInstances = [] ∧ boardC5.netSegments = [] ∧
       boardC5.planes = [] ∧ boardC5.polygons = [] ∧
       boardC5.strokeTexts = [] ∧ boardC5.holes = [] ∧
       boardC5.airWires = [])) := by
  decide

/-- C5 as amended: `isEmpty()` returns true iff the six persistent entity
collections (device instances, net segments, planes, polygons, stroke
texts, holes) are all empty; the derived airwire set is not consulted. -/
theorem c5_isEmpty_amended (b : Board) :
    b.isEmpty = true ↔
      (b.deviceInstances = [] ∧ b.netSegments = [] ∧ b.planes = [] ∧
       b.polygons = [] ∧ b.strokeTexts = [] ∧ b.holes = []) := by
  unfold Board.isEmpty
  simp [Bool.and_eq_true, List.isEmpty_iff, and_assoc]

/-! ### C6: editing operations never touch derived artifacts -/

theorem updateErcMessages_frame (env : Env) (bb : Board) :
    (bb.updateErcMessages env).airWires = bb.airWires ∧
    (bb.updateErcMessages env).planes = bb.planes := by
  unfold Board.updateErcMessages
  split_ifs <;> exact ⟨rfl, rfl⟩

theorem addDeviceInstance_frame (env : Env) (bb : Board) (d : Device) :
    (bb.addDeviceInstance env d).1.airWires = bb.airWires ∧
    (bb.addDeviceInstance env d).1.planes = bb.planes := by
  unfold Board.addDeviceInstance
  split_ifs <;>
    first
      | exact ⟨rfl, rfl⟩
      | exact ⟨(updateErcMessages_frame env _).1, (updateErcMessages_frame env _).2⟩

theorem removeDeviceInstance_frame (env : Env) (bb : Board) (d : Device) :
    (bb.removeDeviceInstance env d).1.airWires = bb.airWires ∧
    (bb.removeDeviceInstance env d).1.planes = bb.planes := by
  unfold Board.removeDeviceInstance
  split_ifs <;>
    first
      | exact ⟨rfl, rfl⟩
      | exact ⟨(updateErcMessages_frame env _).1, (updateErcMessages_frame env _).2⟩

theorem addNetSegment_frame (env : Env) (bb : Board) (ns : NetSegment) :
    (bb.addNetSegment env ns).1.airWires = bb.airWires ∧
    (bb.addNetSegment env ns).1.planes = bb.planes := by
  unfold Board.addNetSegment
  split_ifs <;> exact ⟨rfl, rfl⟩

theorem removeNetSegment_frame (env : Env) (bb : Board) (ns : NetSegment) :
    (bb.removeNetSegment env ns).1.airWires = bb.airWires ∧
    (bb.removeNetSegment env ns).1.planes = bb.planes := by
  unfold Board.removeNetSegment
  split_ifs <;> exact ⟨rfl, rfl⟩

theorem addPlane_frame (env : Env) (bb : Board) (p : Plane) :
    (bb.addPlane env p).1.airWires = bb.airWires ∧
    ((bb.addPlane env p).1.planes = bb.planes ∨
     (bb.addPlane env p).1.planes = bb.planes ++ [p]) := by
  unfold Board.addPlane
  split_ifs <;> first
    | exact ⟨rfl, Or.inl rfl⟩
    | exact ⟨rfl, Or.inr rfl⟩

theorem removePlane_frame (env : Env) (bb : Board) (p : Plane) :
    (bb.removePlane env p).1.airWires = bb.airWires ∧
    ((bb.removePlane env p).1.planes = bb.planes ∨
     (bb.removePlane env p).1.planes =
       removeOneP (fun x => x.id == p.id) bb.planes) := by
  unfold Board.removePlane
  split_ifs <;> first
    | exact ⟨rfl, Or.inl rfl⟩
    | exact ⟨rfl, Or.inr rfl⟩

theorem addPolygon_frame (env : Env) (bb : Board) (p : Polygon) :
    (bb.addPolygon env p).1.airWires = bb.airWires ∧
    (bb.addPolygon env p).1.planes = bb.planes := by
  unfold Board.addPolygon
  split_ifs <;> exact ⟨rfl, rfl⟩

theorem removePolygon_frame (env : Env) (bb : Board) (p : Polygon) :
    (bb.removePolygon env p).1.airWires = bb.airWires ∧
    (bb.removePolygon env p).1.planes = bb.planes := by
  unfold Board.removePolygon
  split_ifs <;> exact ⟨rfl, rfl⟩

theorem addStrokeText_frame (env : Env) (bb : Board) (t : StrokeText) :
    (bb.addStrokeText env t).1.airWires = bb.airWires ∧
    (bb.addStrokeText env t).1.planes = bb.planes := by
  unfold Board.addStrokeText
  split_ifs <;> exact ⟨rfl, rfl⟩

theorem removeStrokeText_frame (env : Env) (bb : Board) (t : StrokeText) :
    (bb.removeStrokeText env t).1.airWires = bb.airWires ∧
    (bb.removeStrokeText env t).1.planes = bb.planes := by
  unfold Board.removeStrokeText
  split_ifs <;> exact ⟨rfl, rfl⟩

theorem addHole_frame (env : Env) (bb : Board) (h : Hole) :
    (bb.addHole env h).1.airWires = bb.airWires ∧
    (bb.addHole env h).1.planes = bb.planes := by
  unfold Board.addHole
  split_ifs <;> exact ⟨rfl, rfl⟩

theorem removeHole_frame (env : Env) (bb : Board) (h : Hole) :
    (bb.removeHole env h).1.airWires = bb.airWires ∧
    (bb.removeHole env h).1.planes = bb.planes := by
  unfold Board.removeHole
  split_ifs <;> exact ⟨rfl, rfl⟩

theorem foldl_seqOp_pres (b : Board) {α : Type}
    (g : Board → α → Board × Option BoardError)
    (hg : ∀ bb a, (g bb a).1.airWires = bb.airWires ∧
      ((g bb a).1.planes = bb.planes ∨ ∃ q, (g bb a).1.planes = bb.planes ++ [q]))
    (l : List α) (r0 : Board × Option BoardError)
    (h0 : r0.1.airWires = b.airWires ∧ ∃ rest, r0.1.planes = b.planes ++ rest) :
    (l.foldl (fun r a => seqOp r (fun bb => g bb a)) r0).1.airWires = b.airWires ∧
    ∃ rest,
      (l.foldl (fun r a => seqOp r (fun bb => g bb a)) r0).1.planes =
        b.planes ++ rest := by
  induction l generalizing r0 with
  | nil => exact h0
  | cons a rest ih =>
    refine ih (seqOp r0 (fun bb => g bb a)) ?_
    obtain ⟨bb, err⟩ := r0
    cases err with
    | some e => exact h0
    | none =>
      show (g bb a).1.airWires = b.airWires ∧
        ∃ rest, (g bb a).1.planes = b.planes ++ rest
      obtain ⟨ha0, rest0, hp0⟩ := h0
      refine ⟨(hg bb a).1.trans ha0, ?_⟩
      rcases (hg bb a).2 with hp | ⟨q, hp⟩
      · exact ⟨rest0, hp.trans hp0⟩
      · exact ⟨rest0 ++ [q], by rw [hp, hp0, List.append_assoc]⟩

theorem copyFrom_frame (env : Env) (b other : Board) :
    (b.copyFrom env other).1.airWires = b.airWires ∧
    ∃ rest, (b.copyFrom env other).1.planes = b.planes ++ rest := by
  simp only [Board.copyFrom]
  refine foldl_seqOp_pres b _ ?_ _ _
    (foldl_seqOp_pres b _ ?_ _ _
      (foldl_seqOp_pres b _ ?_ _ _
        (foldl_seqOp_pres b _ ?_ _ _
          (foldl_seqOp_pres b _ ?_ _ _
            (foldl_seqOp_pres b _ ?_ _ _ ⟨rfl, [], by simp⟩)))))
  · intro bb h
    exact ⟨(addHole_frame env _ _).1, Or.inl (addHole_frame env _ _).2⟩
  · intro bb t
    exact ⟨(addStrokeText_frame env _ _).1, Or.inl (addStrokeText_frame env _ _).2⟩
  · intro bb p
    exact ⟨(addPolygon_frame env _ _).1, Or.inl (addPolygon_frame env _ _).2⟩
  · intro bb p
    exact ⟨(addPlane_frame env _ _).1,
      ((addPlane_frame env _ _).2).imp id (fun h => ⟨_, h⟩)⟩
  · intro bb ns
    exact ⟨(addNetSegment_frame env _ _).1, Or.inl (addNetSegment_frame env _ _).2⟩
  · intro bb kv
    exact ⟨(addDeviceInstance_frame env _ _).1,
      Or.inl (addDeviceInstance_frame env _ _).2⟩

/-- C6: no editing operation (the add/remove operation of any entity kind,
or `copyFrom`) mutates the derived artifacts: the airwire set is left
untouched by all of them, and the planes present before the call keep their
records (including the calculated-fragments field) — an add appends, a
remove erases one plane whole, and `copyFrom` only appends copies.  None of
these operations invokes the fragment or airwire builders. -/
theorem c6_edits_preserve_derived (env : Env) (b other : Board) :
    (∀ d : Device, (b.addDeviceInstance env d).1.airWires = b.airWires ∧
      (b.addDeviceInstance env d).1.planes = b.planes) ∧
    (∀ d : Device, (b.removeDeviceInstance env d).1.airWires = b.airWires ∧
      (b.removeDeviceInstance env d).1.planes = b.planes) ∧
    (∀ ns : NetSegment, (b.addNetSegment env ns).1.airWires = b.airWires ∧
      (b.addNetSegment env ns).1.planes = b.planes) ∧
    (∀ ns : NetSegment, (b.removeNetSegment env ns).1.airWires = b.airWires ∧
      (b.removeNetSegment env ns).1.planes = b.planes) ∧
    (∀ p : Plane, (b.addPlane env p).1.airWires = b.airWires ∧
      ((b.addPlane env p).1.planes = b.planes ∨
       (b.addPlane env p).1.planes = b.planes ++ [p])) ∧
    (∀ p : Plane, (b.removePlane env p).1.airWires = b.airWires ∧
      ((b.removePlane env p).1.planes = b.planes ∨
       (b.removePlane env p).1.planes =
         removeOneP (fun x => x.id == p.id) b.planes)) ∧
    (∀ p : Polygon, (b.addPolygon env p).1.airWires = b.airWires ∧
      (b.addPolygon env p).1.planes = b.planes) ∧
    (∀ p : Polygon, (b.removePolygon env p).1.airWires = b.airWires ∧
      (b.removePolygon env p).1.planes = b.planes) ∧
    (∀ t : StrokeText, (b.addStrokeText env t).1.airWires = b.airWires ∧
      (b.addStrokeText env t).1.planes = b.planes) ∧
    (∀ t : StrokeText, (b.removeStrokeText env t).1.airWires = b.airWires ∧
      (b.removeStrokeText env t).1.planes = b.planes) ∧
    (∀ h : Hole, (b.addHole env h).1.airWires = b.airWires ∧
      (b.addHole env h).1.planes = b.planes) ∧
    (∀ h : Hole, (b.removeHole env h).1.airWires = b.airWires ∧
      (b.removeHole env h).1.planes = b.planes) ∧
    ((b.copyFrom env other).1.airWires = b.airWires ∧
      ∃ rest, (b.copyFrom env other).1.planes = b.planes ++ rest) :=
  ⟨fun d => addDeviceInstance_frame env b d,
    fun d => removeDeviceInstance_frame env b d,
    fun ns => addNetSegment_frame env b ns,
    fun ns => removeNetSegment_frame env b ns,
    fun p => addPlane_frame env b p,
    fun p => removePlane_frame env b p,
    fun p => addPolygon_frame env b p,
    fun p => removePolygon_frame env b p,
    fun t => addStrokeText_frame env b t,
    fun t => removeStrokeText_frame env b t,
    fun h => addHole_frame env b h,
    fun h => removeHole_frame env b h,
    copyFrom_frame env b other⟩

/-! ### C7: detached airwire pipeline -/

def envC7 : Env := { baseEnv with circuitNetSignals := [1] }

/-- Counterexample to C7: on a detached board, `forceAirWiresRebuild` is not
a no-op — it grows the pending set (here from `[]` to `[1]`) before the
early-out in `triggerAirWiresRebuild`, so the document's state changes. -/
theorem c7_counterexample :
    emptyBoard.isAddedToProject = false ∧
    emptyBoard.forceAirWiresRebuild envC7 ≠ emptyBoard ∧
    (emptyBoard.forceAirWiresRebuild envC7).scheduledNetSignals = [1] := by
  decide

/-- C7 as amended: when the document is not attached,
`triggerAirWiresRebuild` is a complete no-op (no indicators removed or
created, nothing changed, not even the pending set), while
`forceAirWiresRebuild` removes and creates no indicators and leaves
everything unchanged except that it still seeds the pending set with the
circuit's net signals and the signals that currently have airwires. -/
theorem c7_detached_noop_amended (env : Env) (b : Board)
    (h : b.isAddedToProject = false) :
    b.triggerAirWiresRebuild env = b ∧
    b.forceAirWiresRebuild env =
      { b with scheduledNetSignals := uniteList (uniteList b.scheduledNetSignals env.circuitNetSignals) (b.airWires.map Prod.fst) } := by
  constructor
  · simp [Board.triggerAirWiresRebuild, h]
  · simp [Board.forceAirWiresRebuild, Board.triggerAirWiresRebuild, h]

/-- Witness for the amended C7 at a concrete detached board. -/
theorem c7_detached_noop_amended_witness :
    emptyBoard.triggerAirWiresRebuild envC7 = emptyBoard ∧
    emptyBoard.forceAirWiresRebuild envC7 =
      { emptyBoard with scheduledNetSignals := [1] } := by
  have h := c7_detached_noop_amended envC7 emptyBoard (by decide)
  exact ⟨h.1, by rw [h.2]; rfl⟩

/-! ### C8: pending set after a failed rebuild -/

theorem addAirWiresLoop_sched (env : Env) (s : Nat) (prs : List (Nat × Nat))
    (b : Board) :
    (addAirWiresLoop env s prs b).1.scheduledNetSignals =
      b.scheduledNetSignals := by
  induction prs generalizing b with
  | nil => rfl
  | cons pr rest ih =>
    simp only [addAirWiresLoop]
    split_ifs <;> first | rfl | exact ih _

theorem rebuildSignal_sched (env : Env) (s : Nat) (b : Board) :
    (rebuildSignal env s b).1.scheduledNetSignals = b.scheduledNetSignals := by
  simp only [rebuildSignal]
  split_ifs <;>
    first
      | rfl
      | (cases env.buildAirWires s <;>
          first | rfl | exact addAirWiresLoop_sched env s _ _)

theorem rebuildSignalsLoop_sched (env : Env) (l : List Nat) (b : Board) :
    (rebuildSignalsLoop env l b).1.scheduledNetSignals =
      b.scheduledNetSignals := by
  induction l generalizing b with
  | nil => rfl
  | cons s rest ih =>
    simp only [rebuildSignalsLoop]
    split_ifs <;>
      first
        | exact (ih _).trans (rebuildSignal_sched env s b)
        | exact rebuildSignal_sched env s b

def envC8 : Env :=
  { baseEnv with netSignalActive := fun s => s == 1, buildAirWires := fun _ => none }

def boardC8 : Board :=
  { emptyBoard with isAddedToProject := true, scheduledNetSignals := [1] }

/-- Counterexample to C8: the `clear()` of the pending set sits inside the
`try` block of `triggerAirWiresRebuild`; when rebuilding a pending signal
throws (here the airwire builder fails for signal 1), the catch block only
logs and the pending set is left non-empty. -/
theorem c8_counterexample :
    boardC8.isAddedToProject = true ∧
    (boardC8.triggerAirWiresRebuild envC8).scheduledNetSignals = [1] := by
  decide

/-- C8 as amended: on an attached document, `triggerAirWiresRebuild` clears
the pending set iff the whole pass runs without an exception; when any
removal, build or attach step throws, the pending set is left exactly as it
was. -/
theorem c8_trigger_pending_amended (env : Env) (b : Board)
    (hatt : b.isAddedToProject = true) :
    (b.triggerAirWiresRebuild env).scheduledNetSignals =
      (if b.airWiresRebuildOk env = true then [] else b.scheduledNetSignals) := by
  simp only [Board.triggerAirWiresRebuild, Board.airWiresRebuildOk, hatt,
    Bool.not_true, Bool.false_eq_true, if_false]
  by_cases hok : (rebuildSignalsLoop env b.scheduledNetSignals b).2 = true
  · rw [if_pos hok, if_pos hok]
  · rw [if_neg hok, if_neg hok]
    exact rebuildSignalsLoop_sched env b.scheduledNetSignals b

/-- Witness for the amended C8: a failing pass leaves the pending set as it
was. -/
theorem c8_trigger_pending_amended_witness :
    (boardC8.triggerAirWiresRebuild envC8).scheduledNetSignals =
      (if boardC8.airWiresRebuildOk envC8 = true then []
       else boardC8.scheduledNetSignals) :=
  c8_trigger_pending_amended envC8 boardC8 (by decide)

/-! ### C10: failed detach leaves the entity in place -/

/-- C10: on an attached document, every remove operation runs the entity's
detach side effect before erasing it from its collection; if the detach
throws, the exception propagates and the board — in particular the
collection — is unchanged, the entity still a member. -/
theorem c10_remove_detach_failure (env : Env) (b : Board)
    (hatt : b.isAddedToProject = true) :
    (∀ d : Device, (lookupKey b.deviceInstances d.cmpUuid).isSome = true →
      env.detachFails d.id = true →
      b.removeDeviceInstance env d = (b, some .sideEffect)) ∧
    (∀ ns : NetSegment, (∃ x ∈ b.netSegments, x.id = ns.id) →
      env.detachFails ns.id = true →
      b.removeNetSegment env ns = (b, some .sideEffect)) ∧
    (∀ p : Plane, (∃ x ∈ b.planes, x.id = p.id) →
      env.detachFails p.id = true →
      b.removePlane env p = (b, some .sideEffect)) ∧
    (∀ p : Polygon, (∃ x ∈ b.polygons, x.id = p.id) →
      env.detachFails p.id = true →
      b.removePolygon env p = (b, some .sideEffect)) ∧
    (∀ t : StrokeText, (∃ x ∈ b.strokeTexts, x.id = t.id) →
      env.detachFails t.id = true →
      b.removeStrokeText env t = (b, some .sideEffect)) ∧
    (∀ h : Hole, (∃ x ∈ b.holes, x.id = h.id) →
      env.detachFails h.id = true →
      b.removeHole env h = (b, some .sideEffect)) := by
  refine ⟨?_, ?_, ?_, ?_, ?_, ?_⟩
  · intro d hmem hdf
    obtain ⟨v, hv⟩ := Option.isSome_iff_exists.mp hmem
    unfold Board.removeDeviceInstance
    rw [hv]
    simp only [Option.isNone_some, Bool.false_eq_true, if_false]
    rw [if_pos ⟨hatt, hdf⟩]
  · intro ns hex hdf
    unfold Board.removeNetSegment
    rw [if_neg (not_not_intro hex), if_pos ⟨hatt, hdf⟩]
  · intro p hex hdf
    unfold Board.removePlane
    rw [if_neg (not_not_intro hex), if_pos ⟨hatt, hdf⟩]
  · intro p hex hdf
    unfold Board.removePolygon
    rw [if_neg (not_not_intro hex), if_pos ⟨hatt, hdf⟩]
  · intro t hex hdf
    unfold Board.removeStrokeText
    rw [if_neg (not_not_intro hex), if_pos ⟨hatt, hdf⟩]
  · intro h hex hdf
    unfold Board.removeHole
    rw [if_neg (not_not_intro hex), if_pos ⟨hatt, hdf⟩]

def envC10 : Env := { baseEnv with detachFails := fun _ => true }

def boardC10 : Board := { boardC2w with isAddedToProject := true }

/-- Witness for C10 on a concrete attached board holding one entity of every
kind, with every detach side effect failing. -/
theorem c10_remove_detach_failure_witness :
    boardC10.removeDeviceInstance envC10 devC2 = (boardC10, some .sideEffect) ∧
    boardC10.removeNetSegment envC10 nsC2 = (boardC10, some .sideEffect) ∧
    boardC10.removePlane envC10 planeC2 = (boardC10, some .sideEffect) ∧
    boardC10.removePolygon envC10 polyC2 = (boardC10, some .sideEffect) ∧
    boardC10.removeStrokeText envC10 stC2 = (boardC10, some .sideEffect) ∧
    boardC10.removeHole envC10 holeC2 = (boardC10, some .sideEffect) := by
  have h := c10_remove_detach_failure envC10 boardC10 (by decide)
  exact ⟨h.1 devC2 (by decide) (by decide),
    h.2.1 nsC2 (by decide) (by decide),
    h.2.2.1 planeC2 (by decide) (by decide),
    h.2.2.2.1 polyC2 (by decide) (by decide),
    h.2.2.2.2.1 stC2 (by decide) (by decide),
    h.2.2.2.2.2 holeC2 (by decide) (by decide)⟩

/-! ### C9: diagnostics synchronizer -/

theorem lookupKey_eq_none_iff {α : Type} (l : List (Nat × α)) (u : Nat) :
    lookupKey l u = none ↔ ∀ kv ∈ l, kv.1 ≠ u := by
  simp only [lookupKey, Option.map_eq_none', List.find?_eq_none, beq_iff_eq]

theorem countKey_eq_zero_iff {α : Type} (l : List (Nat × α)) (u : Nat) :
    countKey l u = 0 ↔ ∀ kv ∈ l, kv.1 ≠ u := by
  simp only [countKey, List.countP_eq_zero, beq_iff_eq]

theorem countKey_cons {α : Type} (kv : Nat × α) (l : List (Nat × α)) (u : Nat) :
    countKey (kv :: l) u = countKey l u + if kv.1 = u then 1 else 0 := by
  simp [countKey, List.countP_cons]

theorem countKey_insortKey_self {α : Type} (u : Nat) (v : α) (l : List (Nat × α)) :
    countKey (insortKey u v l) u = countKey l u + 1 := by
  induction l with
  | nil => simp [insortKey, countKey, List.countP_cons]
  | cons kv rest ih =>
    unfold insortKey
    split_ifs with hle
    · rw [countKey_cons]
      simp
    · rw [countKey_cons, ih, countKey_cons]
      omega

theorem countKey_insortKey_other {α : Type} (u w : Nat) (v : α)
    (l : List (Nat × α)) (hw : w ≠ u) :
    countKey (insortKey u v l) w = countKey l w := by
  induction l with
  | nil =>
    unfold insortKey
    rw [countKey_cons, if_neg (fun h => hw h.symm)]
    omega
  | cons kv rest ih =>
    unfold insortKey
    split_ifs with hle
    · rw [countKey_cons, if_neg (fun h : u = w => hw h.symm), countKey_cons]
      omega
    · rw [countKey_cons, ih, countKey_cons]

theorem mem_insortKey {α : Type} (u : Nat) (v : α) (l : List (Nat × α))
    (kv : Nat × α) (h : kv ∈ insortKey u v l) : kv = (u, v) ∨ kv ∈ l := by
  induction l with
  | nil => simpa [insortKey] using h
  | cons x rest ih =>
    unfold insortKey at h
    split_ifs at h with hle
    · rcases List.mem_cons.mp h with rfl | h2
      · exact Or.inl rfl
      · exact Or.inr h2
    · rcases List.mem_cons.mp h with rfl | h2
      · exact Or.inr (List.mem_cons_self _ _)
      · rcases ih h2 with h3 | h3
        · exact Or.inl h3
        · exact Or.inr (List.mem_cons_of_mem _ h3)

theorem keys_insortKey_perm {α : Type} (u : Nat) (v : α) (l : List (Nat × α)) :
    List.Perm ((insortKey u v l).map Prod.fst) (u :: l.map Prod.fst) := by
  induction l with
  | nil => simp [insortKey]
  | cons kv rest ih =>
    unfold insortKey
    split_ifs with hle
    · simp
    · simp only [List.map_cons]
      exact (ih.cons kv.1).trans (List.Perm.swap u kv.1 _)

theorem countKey_removeKey_self {α : Type} (u : Nat) (l : List (Nat × α)) :
    countKey (removeKey u l) u = 0 := by
  rw [countKey_eq_zero_iff]
  intro kv hkv
  have := List.of_mem_filter hkv
  simpa using this

theorem countKey_removeKey_other {α : Type} (u w : Nat) (l : List (Nat × α))
    (hw : w ≠ u) :
    countKey (removeKey u l) w = countKey l w := by
  induction l with
  | nil => rfl
  | cons kv rest ih =>
    unfold removeKey at ih ⊢
    rw [List.filter_cons]
    split_ifs with hp
    · rw [countKey_cons, countKey_cons, ih]
    · have hk : kv.1 = u := by simpa using hp
      rw [ih, countKey_cons, if_neg (fun h : kv.1 = w => hw ((h.symm.trans hk)))]
      omega

theorem mem_removeKey {α : Type} (u : Nat) (l : List (Nat × α)) (kv : Nat × α)
    (h : kv ∈ removeKey u l) : kv ∈ l :=
  List.mem_of_mem_filter h

theorem keys_removeKey_nodup {α : Type} (u : Nat) (l : List (Nat × α))
    (h : (l.map Prod.fst).Nodup) : ((removeKey u l).map Prod.fst).Nodup :=
  List.Nodup.sublist (List.Sublist.map Prod.fst (List.filter_sublist l)) h

theorem countKey_eq_count_keys {α : Type} (l : List (Nat × α)) (u : Nat) :
    countKey l u = (l.map Prod.fst).count u := by
  induction l with
  | nil => rfl
  | cons kv rest ih =>
    by_cases h : kv.1 = u <;>
      simp [countKey_cons, List.count_cons, h, ih]

theorem countKey_le_one_of_nodup {α : Type} (l : List (Nat × α)) (u : Nat)
    (h : (l.map Prod.fst).Nodup) : countKey l u ≤ 1 := by
  rw [countKey_eq_count_keys]
  exact List.nodup_iff_count_le_one.mp h u

theorem countKey_pos_of_lookup_some {α : Type} (l : List (Nat × α)) (u : Nat)
    (v : α) (h : lookupKey l u = some v) : 0 < countKey l u := by
  unfold lookupKey at h
  obtain ⟨kv, hfind, hmap⟩ := Option.map_eq_some'.mp h
  have hpkv : (kv.1 == u) = true := by
    have h2 := List.find?_some hfind
    simpa using h2
  rw [countKey]
  exact List.countP_pos_iff.mpr
    ⟨kv, List.mem_of_find?_eq_some hfind, hpkv⟩

theorem countKey_eq_one_of_lookup_some {α : Type} (l : List (Nat × α)) (u : Nat)
    (v : α) (hnd : (l.map Prod.fst).Nodup) (h : lookupKey l u = some v) :
    countKey l u = 1 :=
  le_antisymm (countKey_le_one_of_nodup l u hnd)
    (countKey_pos_of_lookup_some l u v h)

theorem countKey_eq_zero_of_lookup_none {α : Type} (l : List (Nat × α)) (u : Nat)
    (h : lookupKey l u = none) : countKey l u = 0 :=
  (countKey_eq_zero_iff l u).mpr ((lookupKey_eq_none_iff l u).mp h)

theorem countKey_filter_of_keep {α : Type} (l : List (Nat × α))
    (p : Nat × α → Bool) (u : Nat)
    (hp : ∀ kv : Nat × α, kv.1 = u → p kv = true) :
    countKey (l.filter p) u = countKey l u := by
  induction l with
  | nil => rfl
  | cons kv rest ih =>
    rw [List.filter_cons]
    by_cases hk : kv.1 = u
    · rw [if_pos (hp kv hk), countKey_cons, countKey_cons, ih]
    · by_cases hpk : p kv = true
      · rw [if_pos hpk, countKey_cons, countKey_cons, ih]
      · rw [if_neg hpk, ih, countKey_cons, if_neg hk]
        omega

/-- Invariant carried through the component loop of
`Board::updateErcMessages`: message keys stay duplicate-free, every
registered message stays visible, and for every already-processed component
instance (not schematic-only) the message count matches placement — one
message when no device realizes it, none when one does. -/
def ErcInv (env : Env) (b : Board) (done : List Nat)
    (msgs : List (Nat × ErcMsg)) : Prop :=
  (msgs.map Prod.fst).Nodup ∧
  (∀ kv ∈ msgs, kv.2.visible = true) ∧
  ∀ cu ∈ done, env.schematicOnly cu = false →
    ((lookupKey b.deviceInstances cu).isNone = true → countKey msgs cu = 1) ∧
    ((lookupKey b.deviceInstances cu).isSome = true → countKey msgs cu = 0)

theorem ercStep_inv (env : Env) (b : Board) (done : List Nat)
    (msgs : List (Nat × ErcMsg)) (cu : Nat)
    (hinv : ErcInv env b done msgs) (hnotin : cu ∉ done) :
    ErcInv env b (done ++ [cu]) (ercStep env b msgs cu) := by
  obtain ⟨hnd, hvis, hq⟩ := hinv
  by_cases hso : env.schematicOnly cu = true
  · have hstep : ercStep env b msgs cu = msgs := by simp [ercStep, hso]
    rw [hstep]
    refine ⟨hnd, hvis, ?_⟩
    intro cu2 hcu2 hso2
    rcases List.mem_append.mp hcu2 with h2 | h2
    · exact hq cu2 h2 hso2
    · rw [List.mem_singleton.mp h2] at hso2
      rw [hso2] at hso
      exact absurd hso (by simp)
  · have hsof : env.schematicOnly cu = false := by
      revert hso; cases env.schematicOnly cu <;> simp
    cases hdev : lookupKey b.deviceInstances cu with
    | none =>
      cases hmsg : lookupKey msgs cu with
      | none =>
        have hstep : ercStep env b msgs cu = insortKey cu { visible := true } msgs := by
          simp [ercStep, hsof, hdev, hmsg]
        rw [hstep]
        have hcu_not : cu ∉ msgs.map Prod.fst := by
          intro hc
          rcases List.mem_map.mp hc with ⟨kv, hkv, hfst⟩
          exact (lookupKey_eq_none_iff msgs cu).mp hmsg kv hkv hfst
        refine ⟨?_, ?_, ?_⟩
        · exact ((keys_insortKey_perm cu _ msgs).nodup_iff).mpr
            (List.nodup_cons.mpr ⟨hcu_not, hnd⟩)
        · intro kv hkv
          rcases mem_insortKey cu _ msgs kv hkv with rfl | h2
          · rfl
          · exact hvis kv h2
        · intro cu2 hcu2 hso2
          rcases List.mem_append.mp hcu2 with h2 | h2
          · have hne : cu2 ≠ cu := fun he => hnotin (he ▸ h2)
            have hq2 := hq cu2 h2 hso2
            exact ⟨fun hdn => by
                rw [countKey_insortKey_other cu cu2 _ msgs hne]; exact hq2.1 hdn,
              fun hds => by
                rw [countKey_insortKey_other cu cu2 _ msgs hne]; exact hq2.2 hds⟩
          · rw [List.mem_singleton.mp h2]
            constructor
            · intro _
              rw [countKey_insortKey_self, countKey_eq_zero_of_lookup_none msgs cu hmsg]
            · intro hds
              rw [hdev] at hds
              exact absurd hds (by simp)
      | some m =>
        have hstep : ercStep env b msgs cu = msgs := by
          simp [ercStep, hsof, hdev, hmsg]
        rw [hstep]
        refine ⟨hnd, hvis, ?_⟩
        intro cu2 hcu2 hso2
        rcases List.mem_append.mp hcu2 with h2 | h2
        · exact hq cu2 h2 hso2
        · rw [List.mem_singleton.mp h2]
          constructor
          · intro _
            exact countKey_eq_one_of_lookup_some msgs cu m hnd hmsg
          · intro hds
            rw [hdev] at hds
            exact absurd hds (by simp)
    | some d =>
      cases hmsg : lookupKey msgs cu with
      | none =>
        have hstep : ercStep env b msgs cu = msgs := by
          simp [ercStep, hsof, hdev, hmsg]
        rw [hstep]
        refine ⟨hnd, hvis, ?_⟩
        intro cu2 hcu2 hso2
        rcases List.mem_append.mp hcu2 with h2 | h2
        · exact hq cu2 h2 hso2
        · rw [List.mem_singleton.mp h2]
          constructor
          · intro hdn
            rw [hdev] at hdn
            exact absurd hdn (by simp)
          · intro _
            exact countKey_eq_zero_of_lookup_none msgs cu hmsg
      | some m =>
        have hstep : ercStep env b msgs cu = removeKey cu msgs := by
          simp [ercStep, hsof, hdev, hmsg]
        rw [hstep]
        refine ⟨keys_removeKey_nodup cu msgs hnd, ?_, ?_⟩
        · intro kv hkv
          exact hvis kv (mem_removeKey cu msgs kv hkv)
        · intro cu2 hcu2 hso2
          rcases List.mem_append.mp hcu2 with h2 | h2
          · have hne : cu2 ≠ cu := fun he => hnotin (he ▸ h2)
            have hq2 := hq cu2 h2 hso2
            exact ⟨fun hdn => by
                rw [countKey_removeKey_other cu cu2 msgs hne]; exact hq2.1 hdn,
              fun hds => by
                rw [countKey_removeKey_other cu cu2 msgs hne]; exact hq2.2 hds⟩
          · rw [List.mem_singleton.mp h2]
            constructor
            · intro hdn
              rw [hdev] at hdn
              exact absurd hdn (by simp)
            · intro _
              exact countKey_removeKey_self cu msgs

theorem ercFold_invariant (env : Env) (b : Board) (l : List Nat) :
    ∀ (done : List Nat) (msgs : List (Nat × ErcMsg)),
      (done ++ l).Nodup → ErcInv env b done msgs →
      ErcInv env b (done ++ l) (l.foldl (ercStep env b) msgs) := by
  induction l with
  | nil =>
    intro done msgs _ hinv
    simpa using hinv
  | cons cu rest ih =>
    intro done msgs hnd hinv
    rw [List.append_cons, List.foldl_cons]
    refine ih (done ++ [cu]) (ercStep env b msgs cu) ?_ ?_
    · rw [← List.append_cons]; exact hnd
    · refine ercStep_inv env b done msgs cu hinv ?_
      intro hc
      exact (List.nodup_append.mp hnd).2.2 hc (List.mem_cons_self cu rest)

/-- C9: after `updateErcMessages` on an attached document (whose message map
is well-formed: duplicate-free keys, all messages visible) and a circuit
whose component list is duplicate-free: every component instance expected to
be placed (not schematic-only) with no realizing device instance has exactly
one registered advisory message, and that message is visible; every such
component instance that has a device instance has no message. -/
theorem c9_updateErcMessages_sync (env : Env) (b : Board)
    (hatt : b.isAddedToProject = true)
    (hkeys : (b.ercMsgs.map Prod.fst).Nodup)
    (hvis : ∀ kv ∈ b.ercMsgs, kv.2.visible = true)
    (hcomp : env.componentInstances.Nodup) :
    ∀ cu ∈ env.componentInstances, env.schematicOnly cu = false →
      ((b.getDeviceInstanceByComponentUuid cu).isNone = true →
        countKey (b.updateErcMessages env).ercMsgs cu = 1 ∧
        ∀ kv ∈ (b.updateErcMessages env).ercMsgs, kv.1 = cu → kv.2.visible = true) ∧
      ((b.getDeviceInstanceByComponentUuid cu).isSome = true →
        countKey (b.updateErcMessages env).ercMsgs cu = 0) := by
  have hfold := ercFold_invariant env b env.componentInstances [] b.ercMsgs
    (by simpa using hcomp) ⟨hkeys, hvis, by simp⟩
  have hmsgs : (b.updateErcMessages env).ercMsgs =
      (env.componentInstances.foldl (ercStep env b) b.ercMsgs).filter
        (fun kv => env.componentInstances.contains kv.1) := by
    simp [Board.updateErcMessages, hatt]
  intro cu hcu hso
  obtain ⟨hnd1, hvis1, hq1⟩ := hfold
  have hqcu := hq1 cu (by simpa using hcu) hso
  have hccu : ∀ kv : Nat × ErcMsg, kv.1 = cu →
      (env.componentInstances.contains kv.1) = true := by
    intro kv hk
    rw [hk]
    exact List.elem_iff.mpr hcu
  constructor
  · intro hdn
    constructor
    · rw [hmsgs, countKey_filter_of_keep _ _ _ hccu]
      exact hqcu.1 hdn
    · intro kv hkv _
      rw [hmsgs] at hkv
      exact hvis1 kv (List.mem_of_mem_filter hkv)
  · intro hds
    rw [hmsgs, countKey_filter_of_keep _ _ _ hccu]
    exact hqcu.2 hds

def devC9 : Device :=
  { id := 7, boardRef := 0, cmpUuid := 2, position := 0, rotation := 0,
    mirrored := false, attributes := 0, strokeTexts := [] }

def envC9 : Env := { baseEnv with componentInstances := [1, 2] }

def boardC9 : Board :=
  { emptyBoard with isAddedToProject := true, deviceInstances := [(2, devC9)] }

/-- Witness for C9: component 1 is unplaced and gets exactly one (visible)
message; component 2 has a device instance and gets none. -/
theorem c9_updateErcMessages_sync_witness :
    countKey (boardC9.updateErcMessages envC9).ercMsgs 1 = 1 ∧
    (∀ kv ∈ (boardC9.updateErcMessages envC9).ercMsgs, kv.1 = 1 →
      kv.2.visible = true) ∧
    countKey (boardC9.updateErcMessages envC9).ercMsgs 2 = 0 := by
  have h := c9_updateErcMessages_sync envC9 boardC9
    (by decide) (by decide) (by decide) (by decide)
  exact ⟨((h 1 (by decide) (by decide)).1 (by decide)).1,
    ((h 1 (by decide) (by decide)).1 (by decide)).2,
    (h 2 (by decide) (by decide)).2 (by decide)⟩
